import Mathlib

/-!
Verification of the 2-D mass-spring-damper simulator (src/main.js) against its
specification.  The physics core is embedded shallowly: positions, velocities,
previous positions and accumulated forces are total functions from grid indices
to exact real 2-vectors, and every mutation of the JavaScript source becomes an
explicit state transformer.  Arithmetic is exact (real numbers), as the claims
under verification are stated in exact arithmetic.
-/

/-- A 2-component vector with explicit x and y fields, embedding the
two-element arrays the source uses for positions, velocities and forces. -/
@[ext]
structure Vec2 where
  x : ℝ
  y : ℝ

/-- Full simulation state: grid dimensions together with the four per-point
arrays (positions, velocities, prevPositions, forces) of the source, embedded
as total functions on grid indices. -/
structure SimState where
  rows : ℕ
  cols : ℕ
  positions : ℕ → ℕ → Vec2
  velocities : ℕ → ℕ → Vec2
  prevPositions : ℕ → ℕ → Vec2
  forces : ℕ → ℕ → Vec2

/-! Physical constants of the source (src/main.js lines 13-26). -/

noncomputable section

def timeStep : ℝ := 0.016

def padding : ℝ := 50

def structuralRestLength : ℝ := 50

def structuralK : ℝ := 20

def structuralDamping : ℝ := 0.1

def shearRestLength : ℝ := structuralRestLength * Real.sqrt 2

def shearK : ℝ := 7

def shearDamping : ℝ := 0.05

def mass : ℝ := 0.2

end

/-- Lexicographic comparison of character lists, embedding the JavaScript
relational comparison of strings (code-unit lexicographic order). -/
def charListLt : List Char → List Char → Bool
  | [], [] => false
  | [], _ :: _ => true
  | _ :: _, [] => false
  | a :: as, b :: bs => if a < b then true else if b < a then false else charListLt as bs

/-- JavaScript string comparison a < b. -/
def strLt (a b : String) : Bool := charListLt a.data b.data

/-- Embeds the source condition task >= "3" that turns on shear springs
(src/main.js lines 147 and 238). -/
def shearEnabled (task : String) : Bool := !(strLt task "3")

/-- Length of the displacement vector between two points: the dist computed at
src/main.js line 185 from dx and dy. -/
noncomputable def springDist (p1 p2 : Vec2) : ℝ :=
  Real.sqrt ((p2.x - p1.x) * (p2.x - p1.x) + (p2.y - p1.y) * (p2.y - p1.y))

/-- Total spring-plus-damping force vector of src/main.js lines 188-205:
Hookean term along the unit direction from p1 to p2 plus the projected
relative-velocity damping term. -/
noncomputable def springForce (p1 p2 v1 v2 : Vec2) (L0 k b : ℝ) : Vec2 :=
  let dx := p2.x - p1.x
  let dy := p2.y - p1.y
  let dist := springDist p1 p2
  let dirX := dx / dist
  let dirY := dy / dist
  let springFx := k * (dist - L0) * dirX
  let springFy := k * (dist - L0) * dirY
  let relVelX := v2.x - v1.x
  let relVelY := v2.y - v1.y
  let relVelDotUnit := relVelX * dirX + relVelY * dirY
  let dampingFx := b * relVelDotUnit * dirX
  let dampingFy := b * relVelDotUnit * dirY
  ⟨springFx + dampingFx, springFy + dampingFy⟩

/-- Adds the vector f into the force accumulator of cell (i, j), embedding the
two compound assignments forces[i][j][0] += fx; forces[i][j][1] += fy. -/
def addForce (s : SimState) (i j : ℕ) (f : Vec2) : SimState :=
  { s with forces := fun i' j' =>
      if i' = i ∧ j' = j then ⟨(s.forces i j).x + f.x, (s.forces i j).y + f.y⟩
      else s.forces i' j' }

/-- Embedding of applySpring (src/main.js lines 175-213): on coincident points
it is a no-op; otherwise it adds the total force over mass to the first point
and subtracts it from the second. -/
noncomputable def applySpring (i1 j1 i2 j2 : ℕ) (L0 k b : ℝ) (s : SimState) : SimState :=
  let p1 := s.positions i1 j1
  let p2 := s.positions i2 j2
  let v1 := s.velocities i1 j1
  let v2 := s.velocities i2 j2
  if springDist p1 p2 = 0 then s
  else
    let F := springForce p1 p2 v1 v2 L0 k b
    addForce (addForce s i1 j1 ⟨F.x / mass, F.y / mass⟩) i2 j2 ⟨-(F.x / mass), -(F.y / mass)⟩

/-- One spring invocation of the force-accumulation pass: endpoint indices plus
whether the spring is a shear (diagonal) spring, which selects the parameter
set used at src/main.js lines 231-243. -/
structure Edge where
  i1 : ℕ
  j1 : ℕ
  i2 : ℕ
  j2 : ℕ
  diag : Bool
  deriving DecidableEq

/-- The pair of endpoint indices of an edge. -/
def Edge.toPair (e : Edge) : (ℕ × ℕ) × (ℕ × ℕ) := ((e.i1, e.j1), (e.i2, e.j2))

/-- Structural spring invocations of calculateForces (src/main.js lines
228-236): for every cell, its right neighbor when one exists, then its down
neighbor when one exists, in loop order. -/
def structuralEdges (rows cols : ℕ) : List Edge :=
  (List.range rows).flatMap fun i =>
    (List.range cols).flatMap fun j =>
      (if j < cols - 1 then [Edge.mk i j i (j + 1) false] else []) ++
      (if i < rows - 1 then [Edge.mk i j (i + 1) j false] else [])

/-- Shear spring invocations of calculateForces (src/main.js lines 240-245):
down-right and up-right diagonals of every 2-by-2 block, in loop order. -/
def shearEdges (rows cols : ℕ) : List Edge :=
  (List.range (rows - 1)).flatMap fun i =>
    (List.range (cols - 1)).flatMap fun j =>
      [Edge.mk i j (i + 1) (j + 1) true, Edge.mk (i + 1) j i (j + 1) true]

/-- The full ordered list of spring invocations made by one force-accumulation
pass: all structural edges, then, only when shear is enabled, all shear
edges. -/
def edgeList (rows cols : ℕ) (shear : Bool) : List Edge :=
  structuralEdges rows cols ++ (if shear then shearEdges rows cols else [])

/-- Applies one spring invocation with the parameter set the source selects
for it (structural or shear constants). -/
noncomputable def applySpringEdge (s : SimState) (e : Edge) : SimState :=
  if e.diag then applySpring e.i1 e.j1 e.i2 e.j2 shearRestLength shearK shearDamping s
  else applySpring e.i1 e.j1 e.i2 e.j2 structuralRestLength structuralK structuralDamping s

/-- Zeroes the force accumulator of every in-range cell, embedding the first
loop of calculateForces (src/main.js lines 219-224). -/
def zeroForces (s : SimState) : SimState :=
  { s with forces := fun i j =>
      if i < s.rows ∧ j < s.cols then ⟨0, 0⟩ else s.forces i j }

/-- Embedding of calculateForces (src/main.js lines 218-248): zero all forces,
then apply every structural spring and, when the task enables them, every
shear spring. -/
noncomputable def calculateForces (task : String) (s : SimState) : SimState :=
  (edgeList s.rows s.cols (shearEnabled task)).foldl applySpringEdge (zeroForces s)

/-- Embedding of the semi-implicit Euler step updatePositions (src/main.js
lines 253-267): accumulate forces, then for every in-range cell add force
times the time step to the velocity and add the just-updated velocity times
the time step to the position.  Each loop iteration reads and writes only its
own cell, so the per-cell functional update is exact. -/
noncomputable def updatePositions (task : String) (s : SimState) : SimState :=
  let s1 := calculateForces task s
  { s1 with
    velocities := fun i j =>
      if i < s1.rows ∧ j < s1.cols then
        ⟨(s1.velocities i j).x + (s1.forces i j).x * timeStep,
         (s1.velocities i j).y + (s1.forces i j).y * timeStep⟩
      else s1.velocities i j,
    positions := fun i j =>
      if i < s1.rows ∧ j < s1.cols then
        ⟨(s1.positions i j).x + ((s1.velocities i j).x + (s1.forces i j).x * timeStep) * timeStep,
         (s1.positions i j).y + ((s1.velocities i j).y + (s1.forces i j).y * timeStep) * timeStep⟩
      else s1.positions i j }

/-- Clamping of one coordinate into the interval from lo to hi, embedding
Math.max(lo, Math.min(hi, v)) of src/main.js lines 308-309 and 511-512. -/
noncomputable def clampCoord (lo hi v : ℝ) : ℝ := max lo (min hi v)

/-- Embedding of the Verlet step updatePosVerlet (src/main.js lines 272-314):
accumulate forces, then for every in-range cell compute the Verlet position
newX = 2x - px + a h^2, shift the previous position to the old current one,
derive the display velocity (newX - px) / (2h), and clamp the new position
into the padded rectangle.  Each loop iteration reads and writes only its own
cell, so the per-cell functional update is exact. -/
noncomputable def updatePosVerlet (task : String) (w hgt : ℝ) (s : SimState) : SimState :=
  let s1 := calculateForces task s
  let h := timeStep
  { s1 with
    positions := fun i j =>
      if i < s1.rows ∧ j < s1.cols then
        ⟨clampCoord padding (w - padding)
           (2 * (s1.positions i j).x - (s1.prevPositions i j).x + (s1.forces i j).x * h * h),
         clampCoord padding (hgt - padding)
           (2 * (s1.positions i j).y - (s1.prevPositions i j).y + (s1.forces i j).y * h * h)⟩
      else s1.positions i j,
    prevPositions := fun i j =>
      if i < s1.rows ∧ j < s1.cols then s1.positions i j else s1.prevPositions i j,
    velocities := fun i j =>
      if i < s1.rows ∧ j < s1.cols then
        ⟨((2 * (s1.positions i j).x - (s1.prevPositions i j).x + (s1.forces i j).x * h * h)
            - (s1.prevPositions i j).x) / (2 * h),
         ((2 * (s1.positions i j).y - (s1.prevPositions i j).y + (s1.forces i j).y * h * h)
            - (s1.prevPositions i j).y) / (2 * h)⟩
      else s1.velocities i j }

/-- Embedding of the drag handler (src/main.js lines 505-526): overwrite one
point with the event coordinates clamped into the padded rectangle, and set
its previous position to the same clamped value. -/
noncomputable def drag (w hgt : ℝ) (i j : ℕ) (X Y : ℝ) (s : SimState) : SimState :=
  let nx := clampCoord padding (w - padding) X
  let ny := clampCoord padding (hgt - padding) Y
  { s with
    positions := fun i' j' => if i' = i ∧ j' = j then ⟨nx, ny⟩ else s.positions i' j',
    prevPositions := fun i' j' => if i' = i ∧ j' = j then ⟨nx, ny⟩ else s.prevPositions i' j' }

/-- Effective row count after the task preset overrides of src/main.js lines
41-57. -/
def effRows (task : String) (rows : ℕ) : ℕ :=
  if task = "1" then 1
  else if task = "2" then 2
  else if task = "3" then 2
  else if task = "4" then 3
  else rows

/-- Effective column count after the task preset overrides of src/main.js
lines 41-57. -/
def effCols (task : String) (cols : ℕ) : ℕ :=
  if task = "1" then 2
  else if task = "2" then 2
  else if task = "3" then 2
  else if task = "4" then 3
  else cols

/-- Lattice position of cell (i, j) from src/main.js lines 63-76: evenly
spaced horizontally starting at the padding, vertically centered. -/
noncomputable def latticePos (rows cols : ℕ) (w hgt : ℝ) (i j : ℕ) : Vec2 :=
  let xStep := if 1 < cols then (w - 2 * padding) / ((cols : ℝ) - 1) else 0
  let yStep := if 1 < rows then (hgt - 2 * padding) / ((rows : ℝ) - 1) else 0
  let yStart := hgt / 2 - ((rows : ℝ) - 1) * yStep / 2
  ⟨padding + (j : ℝ) * xStep, yStart + (i : ℝ) * yStep⟩

/-- Adds an offset to one cell of a point field, embedding the compound
assignments of the disturbance blocks (src/main.js lines 89-108). -/
def addVec (f : ℕ → ℕ → Vec2) (i j : ℕ) (d : Vec2) : ℕ → ℕ → Vec2 :=
  fun i' j' => if i' = i ∧ j' = j then ⟨(f i j).x + d.x, (f i j).y + d.y⟩ else f i' j'

/-- The one-time preset disturbance applied to positions after the deep copy
into prevPositions (src/main.js lines 89-108). -/
def disturb (task : String) (cols : ℕ) (f : ℕ → ℕ → Vec2) : ℕ → ℕ → Vec2 :=
  if task = "1" then addVec f 0 1 ⟨20, 0⟩
  else if task = "2" then addVec f 0 1 ⟨0, -30⟩
  else if task = "3" then addVec f 0 1 ⟨0, -30⟩
  else if task = "4" then addVec f 1 1 ⟨0, -40⟩
  else if task = "5" then addVec f 0 (cols / 2) ⟨0, -40⟩
  else f

/-- The cell targeted by the one-time disturbance of each preset, read off the
disturbance blocks of src/main.js lines 89-108. -/
def disturbedCell (task : String) (cols : ℕ) : Option (ℕ × ℕ) :=
  if task = "1" then some (0, 1)
  else if task = "2" then some (0, 1)
  else if task = "3" then some (0, 1)
  else if task = "4" then some (1, 1)
  else if task = "5" then some (0, cols / 2)
  else none

/-- Embedding of initializeGrid (src/main.js lines 37-112): preset overrides
of the grid dimensions, lattice layout, zero velocities and forces, deep copy
of the lattice into prevPositions, and then the preset disturbance applied to
positions only. -/
noncomputable def initializeGrid (task : String) (rows cols : ℕ) (w hgt : ℝ) : SimState :=
  let r := effRows task rows
  let c := effCols task cols
  { rows := r
    cols := c
    positions := disturb task c (fun i j => latticePos r c w hgt i j)
    velocities := fun _ _ => ⟨0, 0⟩
    prevPositions := fun i j => latticePos r c w hgt i j
    forces := fun _ _ => ⟨0, 0⟩ }

/-- Rendered edge list of drawEdges (src/main.js lines 137-156), abstracted to
the endpoint indices of each drawn line: right and down structural lines for
every cell, then, for task at least 3, both diagonals of every 2-by-2
block. -/
def drawEdgesIdx (rows cols : ℕ) (shear : Bool) : List ((ℕ × ℕ) × (ℕ × ℕ)) :=
  ((List.range rows).flatMap fun i =>
    (List.range cols).flatMap fun j =>
      (if j < cols - 1 then [((i, j), (i, j + 1))] else []) ++
      (if i < rows - 1 then [((i, j), (i + 1, j))] else [])) ++
  (if shear then
    (List.range (rows - 1)).flatMap fun i =>
      (List.range (cols - 1)).flatMap fun j =>
        [((i, j), (i + 1, j + 1)), ((i + 1, j), (i, j + 1))]
   else [])

/-- Sum of the x components of the accumulated forces over the whole grid. -/
noncomputable def totalForceX (s : SimState) : ℝ :=
  ∑ i ∈ Finset.range s.rows, ∑ j ∈ Finset.range s.cols, (s.forces i j).x

/-- Sum of the y components of the accumulated forces over the whole grid. -/
noncomputable def totalForceY (s : SimState) : ℝ :=
  ∑ i ∈ Finset.range s.rows, ∑ j ∈ Finset.range s.cols, (s.forces i j).y

/-! Basic lemmas about the embedded operations. -/

lemma springDist_eq_zero_iff (p1 p2 : Vec2) : springDist p1 p2 = 0 ↔ p1 = p2 := by
  unfold springDist
  rw [Real.sqrt_eq_zero']
  constructor
  · intro h
    have hx : p2.x = p1.x := by nlinarith [mul_self_nonneg (p2.x - p1.x), mul_self_nonneg (p2.y - p1.y)]
    have hy : p2.y = p1.y := by nlinarith [mul_self_nonneg (p2.x - p1.x), mul_self_nonneg (p2.y - p1.y)]
    cases p1; cases p2; simp_all
  · intro h; subst h; simp

lemma addForce_rows (s : SimState) (i j : ℕ) (f : Vec2) : (addForce s i j f).rows = s.rows := rfl

lemma addForce_cols (s : SimState) (i j : ℕ) (f : Vec2) : (addForce s i j f).cols = s.cols := rfl

lemma addForce_positions (s : SimState) (i j : ℕ) (f : Vec2) :
    (addForce s i j f).positions = s.positions := rfl

lemma addForce_velocities (s : SimState) (i j : ℕ) (f : Vec2) :
    (addForce s i j f).velocities = s.velocities := rfl

lemma addForce_prevPositions (s : SimState) (i j : ℕ) (f : Vec2) :
    (addForce s i j f).prevPositions = s.prevPositions := rfl

lemma addForce_forces_x (s : SimState) (a b : ℕ) (f : Vec2) (i j : ℕ) :
    ((addForce s a b f).forces i j).x
      = (s.forces i j).x + (if i = a ∧ j = b then f.x else 0) := by
  unfold addForce
  dsimp only
  split_ifs with h
  · obtain ⟨rfl, rfl⟩ := h; rfl
  · rw [add_zero]

lemma addForce_forces_y (s : SimState) (a b : ℕ) (f : Vec2) (i j : ℕ) :
    ((addForce s a b f).forces i j).y
      = (s.forces i j).y + (if i = a ∧ j = b then f.y else 0) := by
  unfold addForce
  dsimp only
  split_ifs with h
  · obtain ⟨rfl, rfl⟩ := h; rfl
  · rw [add_zero]

lemma applySpring_rows (i1 j1 i2 j2 : ℕ) (L0 k b : ℝ) (s : SimState) :
    (applySpring i1 j1 i2 j2 L0 k b s).rows = s.rows := by
  unfold applySpring; dsimp only; split <;> rfl

lemma applySpring_cols (i1 j1 i2 j2 : ℕ) (L0 k b : ℝ) (s : SimState) :
    (applySpring i1 j1 i2 j2 L0 k b s).cols = s.cols := by
  unfold applySpring; dsimp only; split <;> rfl

lemma applySpring_positions (i1 j1 i2 j2 : ℕ) (L0 k b : ℝ) (s : SimState) :
    (applySpring i1 j1 i2 j2 L0 k b s).positions = s.positions := by
  unfold applySpring; dsimp only; split <;> rfl

lemma applySpring_velocities (i1 j1 i2 j2 : ℕ) (L0 k b : ℝ) (s : SimState) :
    (applySpring i1 j1 i2 j2 L0 k b s).velocities = s.velocities := by
  unfold applySpring; dsimp only; split <;> rfl

lemma applySpring_prevPositions (i1 j1 i2 j2 : ℕ) (L0 k b : ℝ) (s : SimState) :
    (applySpring i1 j1 i2 j2 L0 k b s).prevPositions = s.prevPositions := by
  unfold applySpring; dsimp only; split <;> rfl

/-- Pointwise force change of applySpring at its first endpoint when the two
endpoints are distinct cells at nonzero distance. -/
lemma applySpring_forces_fst (i1 j1 i2 j2 : ℕ) (L0 k b : ℝ) (s : SimState)
    (hij : (i1, j1) ≠ (i2, j2))
    (hp : s.positions i1 j1 ≠ s.positions i2 j2) :
    (applySpring i1 j1 i2 j2 L0 k b s).forces i1 j1
      = ⟨(s.forces i1 j1).x
            + (springForce (s.positions i1 j1) (s.positions i2 j2)
                (s.velocities i1 j1) (s.velocities i2 j2) L0 k b).x / mass,
         (s.forces i1 j1).y
            + (springForce (s.positions i1 j1) (s.positions i2 j2)
                (s.velocities i1 j1) (s.velocities i2 j2) L0 k b).y / mass⟩ := by
  have hd : springDist (s.positions i1 j1) (s.positions i2 j2) ≠ 0 :=
    fun h => hp ((springDist_eq_zero_iff _ _).mp h)
  have hne : ¬(i1 = i2 ∧ j1 = j2) := by
    rintro ⟨rfl, rfl⟩; exact hij rfl
  unfold applySpring
  dsimp only
  rw [if_neg hd]
  ext
  · rw [addForce_forces_x, if_neg hne, add_zero, addForce_forces_x, if_pos ⟨rfl, rfl⟩]
  · rw [addForce_forces_y, if_neg hne, add_zero, addForce_forces_y, if_pos ⟨rfl, rfl⟩]

/-- Pointwise force change of applySpring at its second endpoint when the two
endpoints are distinct cells at nonzero distance. -/
lemma applySpring_forces_snd (i1 j1 i2 j2 : ℕ) (L0 k b : ℝ) (s : SimState)
    (hij : (i1, j1) ≠ (i2, j2))
    (hp : s.positions i1 j1 ≠ s.positions i2 j2) :
    (applySpring i1 j1 i2 j2 L0 k b s).forces i2 j2
      = ⟨(s.forces i2 j2).x
            - (springForce (s.positions i1 j1) (s.positions i2 j2)
                (s.velocities i1 j1) (s.velocities i2 j2) L0 k b).x / mass,
         (s.forces i2 j2).y
            - (springForce (s.positions i1 j1) (s.positions i2 j2)
                (s.velocities i1 j1) (s.velocities i2 j2) L0 k b).y / mass⟩ := by
  have hd : springDist (s.positions i1 j1) (s.positions i2 j2) ≠ 0 :=
    fun h => hp ((springDist_eq_zero_iff _ _).mp h)
  have hne : ¬(i2 = i1 ∧ j2 = j1) := by
    rintro ⟨rfl, rfl⟩; exact hij rfl
  unfold applySpring
  dsimp only
  rw [if_neg hd]
  ext
  · rw [addForce_forces_x, if_pos ⟨rfl, rfl⟩, addForce_forces_x, if_neg hne, add_zero]
    ring
  · rw [addForce_forces_y, if_pos ⟨rfl, rfl⟩, addForce_forces_y, if_neg hne, add_zero]
    ring

/-- Distance between two horizontally aligned points evaluates to the
coordinate difference. -/
lemma springDist_horiz (x1 x2 y : ℝ) (h : x1 ≤ x2) :
    springDist ⟨x1, y⟩ ⟨x2, y⟩ = x2 - x1 := by
  unfold springDist
  dsimp only
  rw [show (x2 - x1) * (x2 - x1) + (y - y) * (y - y) = (x2 - x1) ^ 2 by ring]
  exact Real.sqrt_sq (by linarith)

/-- Concrete two-point state: a 1-by-2 grid with the points at distance 100,
all velocities, previous positions and forces zero or copied. -/
noncomputable def witSep : SimState where
  rows := 1
  cols := 2
  positions := fun _ j => if j = 0 then ⟨0, 0⟩ else ⟨100, 0⟩
  velocities := fun _ _ => ⟨0, 0⟩
  prevPositions := fun _ j => if j = 0 then ⟨0, 0⟩ else ⟨100, 0⟩
  forces := fun _ _ => ⟨0, 0⟩

lemma witSep_pos_ne : witSep.positions 0 0 ≠ witSep.positions 0 1 := by
  simp only [witSep]
  intro h
  have := congrArg Vec2.x h
  norm_num at this

/-- C3: for a single applySpring call on two distinct connected points at
nonzero distance, for all stiffness, damping and rest-length values, the force
vector added to the first endpoint's accumulator is exactly the negative of
the force vector added to the second endpoint's accumulator (Newton's third
law), in exact arithmetic. -/
theorem applySpring_newton_third (i1 j1 i2 j2 : ℕ) (L0 k b : ℝ) (s : SimState)
    (hij : (i1, j1) ≠ (i2, j2))
    (hp : s.positions i1 j1 ≠ s.positions i2 j2) :
    ((applySpring i1 j1 i2 j2 L0 k b s).forces i1 j1).x - (s.forces i1 j1).x
        = -(((applySpring i1 j1 i2 j2 L0 k b s).forces i2 j2).x - (s.forces i2 j2).x)
    ∧ ((applySpring i1 j1 i2 j2 L0 k b s).forces i1 j1).y - (s.forces i1 j1).y
        = -(((applySpring i1 j1 i2 j2 L0 k b s).forces i2 j2).y - (s.forces i2 j2).y) := by
  rw [applySpring_forces_fst i1 j1 i2 j2 L0 k b s hij hp,
    applySpring_forces_snd i1 j1 i2 j2 L0 k b s hij hp]
  constructor <;> dsimp only <;> ring

/-- Witness for C3 at a concrete two-point state. -/
theorem applySpring_newton_third_witness :
    ((0 : ℕ), (0 : ℕ)) ≠ ((0 : ℕ), (1 : ℕ)) ∧
    witSep.positions 0 0 ≠ witSep.positions 0 1 ∧
    (((applySpring 0 0 0 1 structuralRestLength structuralK structuralDamping witSep).forces 0 0).x
          - (witSep.forces 0 0).x
        = -(((applySpring 0 0 0 1 structuralRestLength structuralK structuralDamping
              witSep).forces 0 1).x - (witSep.forces 0 1).x)
      ∧ ((applySpring 0 0 0 1 structuralRestLength structuralK structuralDamping
              witSep).forces 0 0).y - (witSep.forces 0 0).y
        = -(((applySpring 0 0 0 1 structuralRestLength structuralK structuralDamping
              witSep).forces 0 1).y - (witSep.forces 0 1).y)) :=
  ⟨by decide, witSep_pos_ne,
    applySpring_newton_third 0 0 0 1 structuralRestLength structuralK structuralDamping witSep
      (by decide) witSep_pos_ne⟩

/-- Concrete coincident-point state: a 1-by-2 grid with both points at the
same position. -/
noncomputable def witCoin : SimState where
  rows := 1
  cols := 2
  positions := fun _ _ => ⟨50, 50⟩
  velocities := fun _ _ => ⟨0, 0⟩
  prevPositions := fun _ _ => ⟨50, 50⟩
  forces := fun _ _ => ⟨0, 0⟩

/-- C4: applySpring on two coincident points (distance exactly 0) is a no-op:
no error is raised and the whole state, force accumulators included, is
returned unchanged. -/
theorem applySpring_coincident_noop (i1 j1 i2 j2 : ℕ) (L0 k b : ℝ) (s : SimState)
    (hp : s.positions i1 j1 = s.positions i2 j2) :
    applySpring i1 j1 i2 j2 L0 k b s = s := by
  unfold applySpring
  dsimp only
  rw [if_pos ((springDist_eq_zero_iff _ _).mpr hp)]

/-- Witness for C4 at a concrete coincident-point state. -/
theorem applySpring_coincident_noop_witness :
    witCoin.positions 0 0 = witCoin.positions 0 1 ∧
    applySpring 0 0 0 1 structuralRestLength structuralK structuralDamping witCoin = witCoin :=
  ⟨rfl, applySpring_coincident_noop 0 0 0 1 structuralRestLength structuralK structuralDamping
    witCoin rfl⟩

/-- Concrete rest-length state: a 1-by-2 grid with the points at distance
exactly the structural rest length 50 and equal (zero) velocities. -/
noncomputable def witRest : SimState where
  rows := 1
  cols := 2
  positions := fun _ j => if j = 0 then ⟨0, 0⟩ else ⟨50, 0⟩
  velocities := fun _ _ => ⟨0, 0⟩
  prevPositions := fun _ j => if j = 0 then ⟨0, 0⟩ else ⟨50, 0⟩
  forces := fun _ _ => ⟨0, 0⟩

/-- C8: a single applySpring call on two points whose distance equals the rest
length and whose relative velocity is zero leaves every force accumulator
exactly unchanged: the net contribution added to each endpoint is (0,0), in
exact arithmetic. -/
theorem applySpring_rest_no_force (i1 j1 i2 j2 : ℕ) (L0 k b : ℝ) (s : SimState)
    (hL : springDist (s.positions i1 j1) (s.positions i2 j2) = L0)
    (hv : s.velocities i1 j1 = s.velocities i2 j2) :
    (applySpring i1 j1 i2 j2 L0 k b s).forces = s.forces := by
  unfold applySpring
  dsimp only
  split_ifs with h
  · rfl
  · have hF : springForce (s.positions i1 j1) (s.positions i2 j2)
        (s.velocities i1 j1) (s.velocities i2 j2) L0 k b = ⟨0, 0⟩ := by
      unfold springForce
      dsimp only
      rw [hL, hv]
      ext <;> dsimp only <;> ring
    rw [hF]
    funext i' j'
    ext
    · rw [addForce_forces_x, addForce_forces_x]
      dsimp only
      rw [zero_div]
      simp
    · rw [addForce_forces_y, addForce_forces_y]
      dsimp only
      rw [zero_div]
      simp

/-- Witness for C8 at a concrete state with the two points at rest length. -/
theorem applySpring_rest_no_force_witness :
    springDist (witRest.positions 0 0) (witRest.positions 0 1) = structuralRestLength ∧
    witRest.velocities 0 0 = witRest.velocities 0 1 ∧
    (applySpring 0 0 0 1 structuralRestLength structuralK structuralDamping witRest).forces
      = witRest.forces := by
  have hL : springDist (witRest.positions 0 0) (witRest.positions 0 1)
      = structuralRestLength := by
    show springDist ⟨0, 0⟩ ⟨50, 0⟩ = structuralRestLength
    rw [springDist_horiz 0 50 0 (by norm_num), structuralRestLength]
    norm_num
  exact ⟨hL, rfl,
    applySpring_rest_no_force 0 0 0 1 structuralRestLength structuralK structuralDamping
      witRest hL rfl⟩

/-- C1 (amended): for every applySpring call on two distinct points at nonzero
distance, with F the total spring-plus-damping force along the unit vector
from the first point toward the second, the operation increases the first
point's accumulated force by F over mass and decreases the second point's
accumulated force by F over mass. -/
theorem applySpring_force_transfer (i1 j1 i2 j2 : ℕ) (L0 k b : ℝ) (s : SimState)
    (hij : (i1, j1) ≠ (i2, j2))
    (hp : s.positions i1 j1 ≠ s.positions i2 j2) :
    (applySpring i1 j1 i2 j2 L0 k b s).forces i1 j1
      = ⟨(s.forces i1 j1).x
            + (springForce (s.positions i1 j1) (s.positions i2 j2)
                (s.velocities i1 j1) (s.velocities i2 j2) L0 k b).x / mass,
         (s.forces i1 j1).y
            + (springForce (s.positions i1 j1) (s.positions i2 j2)
                (s.velocities i1 j1) (s.velocities i2 j2) L0 k b).y / mass⟩
    ∧ (applySpring i1 j1 i2 j2 L0 k b s).forces i2 j2
      = ⟨(s.forces i2 j2).x
            - (springForce (s.positions i1 j1) (s.positions i2 j2)
                (s.velocities i1 j1) (s.velocities i2 j2) L0 k b).x / mass,
         (s.forces i2 j2).y
            - (springForce (s.positions i1 j1) (s.positions i2 j2)
                (s.velocities i1 j1) (s.velocities i2 j2) L0 k b).y / mass⟩ :=
  ⟨applySpring_forces_fst i1 j1 i2 j2 L0 k b s hij hp,
   applySpring_forces_snd i1 j1 i2 j2 L0 k b s hij hp⟩

/-- Witness for the amended C1 at a concrete two-point state. -/
theorem applySpring_force_transfer_witness :
    ((0 : ℕ), (0 : ℕ)) ≠ ((0 : ℕ), (1 : ℕ)) ∧
    witSep.positions 0 0 ≠ witSep.positions 0 1 ∧
    ((applySpring 0 0 0 1 structuralRestLength structuralK structuralDamping witSep).forces 0 0
      = ⟨(witSep.forces 0 0).x
            + (springForce (witSep.positions 0 0) (witSep.positions 0 1)
                (witSep.velocities 0 0) (witSep.velocities 0 1)
                structuralRestLength structuralK structuralDamping).x / mass,
         (witSep.forces 0 0).y
            + (springForce (witSep.positions 0 0) (witSep.positions 0 1)
                (witSep.velocities 0 0) (witSep.velocities 0 1)
                structuralRestLength structuralK structuralDamping).y / mass⟩
    ∧ (applySpring 0 0 0 1 structuralRestLength structuralK structuralDamping witSep).forces 0 1
      = ⟨(witSep.forces 0 1).x
            - (springForce (witSep.positions 0 0) (witSep.positions 0 1)
                (witSep.velocities 0 0) (witSep.velocities 0 1)
                structuralRestLength structuralK structuralDamping).x / mass,
         (witSep.forces 0 1).y
            - (springForce (witSep.positions 0 0) (witSep.positions 0 1)
                (witSep.velocities 0 0) (witSep.velocities 0 1)
                structuralRestLength structuralK structuralDamping).y / mass⟩) :=
  ⟨by decide, witSep_pos_ne,
    applySpring_force_transfer 0 0 0 1 structuralRestLength structuralK structuralDamping witSep
      (by decide) witSep_pos_ne⟩

/-- Value of the spring force on the concrete separated state: the spring is
stretched to length 100 against rest length 50, so the force along the unit
vector from the first point to the second is 1000 in x. -/
lemma witSep_springForce :
    springForce (witSep.positions 0 0) (witSep.positions 0 1)
      (witSep.velocities 0 0) (witSep.velocities 0 1)
      structuralRestLength structuralK structuralDamping = ⟨1000, 0⟩ := by
  have hd : springDist (witSep.positions 0 0) (witSep.positions 0 1) = 100 := by
    show springDist ⟨0, 0⟩ ⟨100, 0⟩ = 100
    rw [springDist_horiz 0 100 0 (by norm_num)]
    norm_num
  unfold springForce
  rw [hd]
  simp only [witSep, Vec2.mk.injEq]
  norm_num [structuralK, structuralRestLength, structuralDamping]

/-- C1 counterexample: at a concrete call on points at distance 100 the first
endpoint's accumulated x force after the call is plus 5000, not the value the
claim predicts (old value minus F over mass, which is minus 5000). -/
theorem applySpring_force_transfer_cex :
    ((applySpring 0 0 0 1 structuralRestLength structuralK structuralDamping witSep).forces 0 0).x
      ≠ (witSep.forces 0 0).x
          - (springForce (witSep.positions 0 0) (witSep.positions 0 1)
              (witSep.velocities 0 0) (witSep.velocities 0 1)
              structuralRestLength structuralK structuralDamping).x / mass := by
  rw [(applySpring_forces_fst 0 0 0 1 structuralRestLength structuralK structuralDamping witSep
      (by decide) witSep_pos_ne)]
  dsimp only
  rw [witSep_springForce]
  show (witSep.forces 0 0).x + (1000 : ℝ) / mass ≠ (witSep.forces 0 0).x - 1000 / mass
  have : (witSep.forces 0 0).x = 0 := rfl
  rw [this, mass]
  norm_num

/-! Preservation lemmas: force accumulation touches only the force array. -/

lemma applySpringEdge_rows (s : SimState) (e : Edge) :
    (applySpringEdge s e).rows = s.rows := by
  unfold applySpringEdge; split <;> apply applySpring_rows

lemma applySpringEdge_cols (s : SimState) (e : Edge) :
    (applySpringEdge s e).cols = s.cols := by
  unfold applySpringEdge; split <;> apply applySpring_cols

lemma applySpringEdge_positions (s : SimState) (e : Edge) :
    (applySpringEdge s e).positions = s.positions := by
  unfold applySpringEdge; split <;> apply applySpring_positions

lemma applySpringEdge_velocities (s : SimState) (e : Edge) :
    (applySpringEdge s e).velocities = s.velocities := by
  unfold applySpringEdge; split <;> apply applySpring_velocities

lemma applySpringEdge_prevPositions (s : SimState) (e : Edge) :
    (applySpringEdge s e).prevPositions = s.prevPositions := by
  unfold applySpringEdge; split <;> apply applySpring_prevPositions

lemma foldl_applySpringEdge_rows (l : List Edge) (s : SimState) :
    (l.foldl applySpringEdge s).rows = s.rows := by
  induction l generalizing s with
  | nil => rfl
  | cons e l ih => rw [List.foldl_cons, ih, applySpringEdge_rows]

lemma foldl_applySpringEdge_cols (l : List Edge) (s : SimState) :
    (l.foldl applySpringEdge s).cols = s.cols := by
  induction l generalizing s with
  | nil => rfl
  | cons e l ih => rw [List.foldl_cons, ih, applySpringEdge_cols]

lemma foldl_applySpringEdge_positions (l : List Edge) (s : SimState) :
    (l.foldl applySpringEdge s).positions = s.positions := by
  induction l generalizing s with
  | nil => rfl
  | cons e l ih => rw [List.foldl_cons, ih, applySpringEdge_positions]

lemma foldl_applySpringEdge_velocities (l : List Edge) (s : SimState) :
    (l.foldl applySpringEdge s).velocities = s.velocities := by
  induction l generalizing s with
  | nil => rfl
  | cons e l ih => rw [List.foldl_cons, ih, applySpringEdge_velocities]

lemma foldl_applySpringEdge_prevPositions (l : List Edge) (s : SimState) :
    (l.foldl applySpringEdge s).prevPositions = s.prevPositions := by
  induction l generalizing s with
  | nil => rfl
  | cons e l ih => rw [List.foldl_cons, ih, applySpringEdge_prevPositions]

lemma calculateForces_rows (task : String) (s : SimState) :
    (calculateForces task s).rows = s.rows := by
  unfold calculateForces; rw [foldl_applySpringEdge_rows]; rfl

lemma calculateForces_cols (task : String) (s : SimState) :
    (calculateForces task s).cols = s.cols := by
  unfold calculateForces; rw [foldl_applySpringEdge_cols]; rfl

lemma calculateForces_positions (task : String) (s : SimState) :
    (calculateForces task s).positions = s.positions := by
  unfold calculateForces; rw [foldl_applySpringEdge_positions]; rfl

lemma calculateForces_velocities (task : String) (s : SimState) :
    (calculateForces task s).velocities = s.velocities := by
  unfold calculateForces; rw [foldl_applySpringEdge_velocities]; rfl

lemma calculateForces_prevPositions (task : String) (s : SimState) :
    (calculateForces task s).prevPositions = s.prevPositions := by
  unfold calculateForces; rw [foldl_applySpringEdge_prevPositions]; rfl

/-- Concrete one-point state: a 1-by-1 grid, which has no springs at all. -/
noncomputable def witOne : SimState where
  rows := 1
  cols := 1
  positions := fun _ _ => ⟨60, 60⟩
  velocities := fun _ _ => ⟨0, 0⟩
  prevPositions := fun _ _ => ⟨60, 60⟩
  forces := fun _ _ => ⟨0, 0⟩

/-- C5: one semi-implicit Euler step updates, for every mass point, velocity
by adding force times the time step, then position by adding the just-updated
velocity times the time step; no boundary clamping is applied to the position
(it equals the unclamped update exactly), and previous positions are left
entirely unchanged. -/
theorem euler_step_semi_implicit (task : String) (s : SimState) (i j : ℕ)
    (hi : i < s.rows) (hj : j < s.cols) :
    (updatePositions task s).velocities i j
      = ⟨(s.velocities i j).x + ((calculateForces task s).forces i j).x * timeStep,
         (s.velocities i j).y + ((calculateForces task s).forces i j).y * timeStep⟩
    ∧ (updatePositions task s).positions i j
      = ⟨(s.positions i j).x
            + ((s.velocities i j).x + ((calculateForces task s).forces i j).x * timeStep)
              * timeStep,
         (s.positions i j).y
            + ((s.velocities i j).y + ((calculateForces task s).forces i j).y * timeStep)
              * timeStep⟩
    ∧ (updatePositions task s).prevPositions = s.prevPositions := by
  unfold updatePositions
  dsimp only
  rw [calculateForces_rows, calculateForces_cols, calculateForces_velocities,
    calculateForces_positions, calculateForces_prevPositions]
  rw [if_pos ⟨hi, hj⟩, if_pos ⟨hi, hj⟩]
  exact ⟨rfl, rfl, rfl⟩

/-- Witness for C5 at a concrete one-point state. -/
theorem euler_step_semi_implicit_witness :
    0 < witOne.rows ∧ 0 < witOne.cols ∧
    ((updatePositions "1" witOne).velocities 0 0
      = ⟨(witOne.velocities 0 0).x + ((calculateForces "1" witOne).forces 0 0).x * timeStep,
         (witOne.velocities 0 0).y + ((calculateForces "1" witOne).forces 0 0).y * timeStep⟩
    ∧ (updatePositions "1" witOne).positions 0 0
      = ⟨(witOne.positions 0 0).x
            + ((witOne.velocities 0 0).x + ((calculateForces "1" witOne).forces 0 0).x * timeStep)
              * timeStep,
         (witOne.positions 0 0).y
            + ((witOne.velocities 0 0).y + ((calculateForces "1" witOne).forces 0 0).y * timeStep)
              * timeStep⟩
    ∧ (updatePositions "1" witOne).prevPositions = witOne.prevPositions) :=
  ⟨Nat.one_pos, Nat.one_pos, euler_step_semi_implicit "1" witOne 0 0 Nat.one_pos Nat.one_pos⟩

/-- A clamped coordinate lies in the clamping interval whenever the interval
is nonempty. -/
lemma clampCoord_mem (lo hi v : ℝ) (h : lo ≤ hi) :
    lo ≤ clampCoord lo hi v ∧ clampCoord lo hi v ≤ hi :=
  ⟨le_max_left _ _, max_le h (min_le_left _ _)⟩

/-- C6: after a Verlet step every in-range point's coordinates lie within the
padded rectangle, and a position written by the drag overwrite is clamped to
the same bounds. -/
theorem verlet_drag_bounds (task : String) (w hgt : ℝ) (s : SimState) (i j : ℕ) (X Y : ℝ)
    (hw : padding ≤ w - padding) (hh : padding ≤ hgt - padding)
    (hi : i < s.rows) (hj : j < s.cols) :
    (padding ≤ ((updatePosVerlet task w hgt s).positions i j).x
      ∧ ((updatePosVerlet task w hgt s).positions i j).x ≤ w - padding
      ∧ padding ≤ ((updatePosVerlet task w hgt s).positions i j).y
      ∧ ((updatePosVerlet task w hgt s).positions i j).y ≤ hgt - padding)
    ∧ (padding ≤ ((drag w hgt i j X Y s).positions i j).x
      ∧ ((drag w hgt i j X Y s).positions i j).x ≤ w - padding
      ∧ padding ≤ ((drag w hgt i j X Y s).positions i j).y
      ∧ ((drag w hgt i j X Y s).positions i j).y ≤ hgt - padding) := by
  constructor
  · unfold updatePosVerlet
    dsimp only
    rw [calculateForces_rows, calculateForces_cols, if_pos ⟨hi, hj⟩]
    exact ⟨(clampCoord_mem _ _ _ hw).1, (clampCoord_mem _ _ _ hw).2,
      (clampCoord_mem _ _ _ hh).1, (clampCoord_mem _ _ _ hh).2⟩
  · unfold drag
    dsimp only
    rw [if_pos ⟨rfl, rfl⟩]
    exact ⟨(clampCoord_mem _ _ _ hw).1, (clampCoord_mem _ _ _ hw).2,
      (clampCoord_mem _ _ _ hh).1, (clampCoord_mem _ _ _ hh).2⟩

/-- Witness for C6 at a concrete one-point state on a 200-by-200 canvas. -/
theorem verlet_drag_bounds_witness :
    padding ≤ 200 - padding ∧ 0 < witOne.rows ∧ 0 < witOne.cols ∧
    ((padding ≤ ((updatePosVerlet "1" 200 200 witOne).positions 0 0).x
      ∧ ((updatePosVerlet "1" 200 200 witOne).positions 0 0).x ≤ 200 - padding
      ∧ padding ≤ ((updatePosVerlet "1" 200 200 witOne).positions 0 0).y
      ∧ ((updatePosVerlet "1" 200 200 witOne).positions 0 0).y ≤ 200 - padding)
    ∧ (padding ≤ ((drag 200 200 0 0 500 (-500) witOne).positions 0 0).x
      ∧ ((drag 200 200 0 0 500 (-500) witOne).positions 0 0).x ≤ 200 - padding
      ∧ padding ≤ ((drag 200 200 0 0 500 (-500) witOne).positions 0 0).y
      ∧ ((drag 200 200 0 0 500 (-500) witOne).positions 0 0).y ≤ 200 - padding)) := by
  have hw : padding ≤ (200 : ℝ) - padding := by rw [padding]; norm_num
  exact ⟨hw, Nat.one_pos, Nat.one_pos,
    verlet_drag_bounds "1" 200 200 witOne 0 0 500 (-500) hw hw Nat.one_pos Nat.one_pos⟩

lemma updatePosVerlet_rows (task : String) (w hgt : ℝ) (s : SimState) :
    (updatePosVerlet task w hgt s).rows = s.rows := by
  unfold updatePosVerlet
  exact calculateForces_rows task s

lemma updatePosVerlet_cols (task : String) (w hgt : ℝ) (s : SimState) :
    (updatePosVerlet task w hgt s).cols = s.cols := by
  unfold updatePosVerlet
  exact calculateForces_cols task s

lemma verlet_iterate_rows (task : String) (w hgt : ℝ) (s : SimState) (n : ℕ) :
    ((updatePosVerlet task w hgt)^[n] s).rows = s.rows := by
  induction n with
  | zero => rfl
  | succ n ih => rw [Function.iterate_succ_apply', updatePosVerlet_rows, ih]

lemma verlet_iterate_cols (task : String) (w hgt : ℝ) (s : SimState) (n : ℕ) :
    ((updatePosVerlet task w hgt)^[n] s).cols = s.cols := by
  induction n with
  | zero => rfl
  | succ n ih => rw [Function.iterate_succ_apply', updatePosVerlet_cols, ih]

/-- On a 1-by-1 grid there are no springs, so a force-accumulation pass leaves
the single point's force at zero. -/
lemma calculateForces_forces_one (task : String) (s : SimState)
    (h1 : s.rows = 1) (h2 : s.cols = 1) :
    (calculateForces task s).forces 0 0 = ⟨0, 0⟩ := by
  unfold calculateForces
  rw [h1, h2]
  have he : edgeList 1 1 (shearEnabled task) = [] := by
    cases shearEnabled task <;> rfl
  rw [he]
  show (zeroForces s).forces 0 0 = ⟨0, 0⟩
  unfold zeroForces
  dsimp only
  rw [if_pos ⟨by rw [h1]; exact Nat.one_pos, by rw [h2]; exact Nat.one_pos⟩]

/-- The clamp is the identity on values already inside the interval. -/
lemma clampCoord_eq_self (lo hi v : ℝ) (h1 : lo ≤ v) (h2 : v ≤ hi) :
    clampCoord lo hi v = v := by
  unfold clampCoord
  rw [min_eq_right h2, max_eq_right h1]

/-- Pointwise characterization of the Verlet position update at an in-range
cell. -/
lemma updatePosVerlet_positions_in (task : String) (w hgt : ℝ) (s : SimState) (i j : ℕ)
    (hi : i < s.rows) (hj : j < s.cols) :
    (updatePosVerlet task w hgt s).positions i j
      = ⟨clampCoord padding (w - padding)
            (2 * (s.positions i j).x - (s.prevPositions i j).x
              + ((calculateForces task s).forces i j).x * timeStep * timeStep),
          clampCoord padding (hgt - padding)
            (2 * (s.positions i j).y - (s.prevPositions i j).y
              + ((calculateForces task s).forces i j).y * timeStep * timeStep)⟩ := by
  unfold updatePosVerlet
  dsimp only
  rw [calculateForces_rows, calculateForces_cols, if_pos ⟨hi, hj⟩,
    calculateForces_positions, calculateForces_prevPositions]

/-- Pointwise characterization of the Verlet previous-position update at an
in-range cell. -/
lemma updatePosVerlet_prevPositions_in (task : String) (w hgt : ℝ) (s : SimState) (i j : ℕ)
    (hi : i < s.rows) (hj : j < s.cols) :
    (updatePosVerlet task w hgt s).prevPositions i j = s.positions i j := by
  unfold updatePosVerlet
  dsimp only
  rw [calculateForces_rows, calculateForces_cols, if_pos ⟨hi, hj⟩, calculateForces_positions]

/-- C7: under the Verlet scheme, a mass point whose accumulated force is zero
at every step, whose current and previous positions coincide, and which lies
inside the padded bounds, keeps its position and previous position unchanged
across any number of Verlet steps. -/
theorem verlet_stationary (task : String) (w hgt : ℝ) (s : SimState) (i j : ℕ)
    (hi : i < s.rows) (hj : j < s.cols)
    (heq : s.prevPositions i j = s.positions i j)
    (hx1 : padding ≤ (s.positions i j).x) (hx2 : (s.positions i j).x ≤ w - padding)
    (hy1 : padding ≤ (s.positions i j).y) (hy2 : (s.positions i j).y ≤ hgt - padding)
    (hF : ∀ n : ℕ,
      (calculateForces task ((updatePosVerlet task w hgt)^[n] s)).forces i j = ⟨0, 0⟩) :
    ∀ n : ℕ, ((updatePosVerlet task w hgt)^[n] s).positions i j = s.positions i j
      ∧ ((updatePosVerlet task w hgt)^[n] s).prevPositions i j = s.positions i j := by
  intro n
  induction n with
  | zero => exact ⟨rfl, heq⟩
  | succ n ih =>
    obtain ⟨hp, hpp⟩ := ih
    rw [Function.iterate_succ_apply']
    have hit : i < ((updatePosVerlet task w hgt)^[n] s).rows := by
      rw [verlet_iterate_rows]; exact hi
    have hjt : j < ((updatePosVerlet task w hgt)^[n] s).cols := by
      rw [verlet_iterate_cols]; exact hj
    constructor
    · rw [updatePosVerlet_positions_in task w hgt _ i j hit hjt, hF n, hp, hpp]
      ext
      · dsimp only
        rw [show 2 * (s.positions i j).x - (s.positions i j).x + 0 * timeStep * timeStep
            = (s.positions i j).x by ring]
        exact clampCoord_eq_self _ _ _ hx1 hx2
      · dsimp only
        rw [show 2 * (s.positions i j).y - (s.positions i j).y + 0 * timeStep * timeStep
            = (s.positions i j).y by ring]
        exact clampCoord_eq_self _ _ _ hy1 hy2
    · rw [updatePosVerlet_prevPositions_in task w hgt _ i j hit hjt, hp]

/-- Witness for C7: the single point of a springless 1-by-1 grid stays put for
three Verlet steps. -/
theorem verlet_stationary_witness :
    0 < witOne.rows ∧ 0 < witOne.cols
    ∧ witOne.prevPositions 0 0 = witOne.positions 0 0
    ∧ padding ≤ (witOne.positions 0 0).x ∧ (witOne.positions 0 0).x ≤ 200 - padding
    ∧ padding ≤ (witOne.positions 0 0).y ∧ (witOne.positions 0 0).y ≤ 200 - padding
    ∧ (∀ n : ℕ,
        (calculateForces "1" ((updatePosVerlet "1" 200 200)^[n] witOne)).forces 0 0 = ⟨0, 0⟩)
    ∧ (((updatePosVerlet "1" 200 200)^[3] witOne).positions 0 0 = witOne.positions 0 0
        ∧ ((updatePosVerlet "1" 200 200)^[3] witOne).prevPositions 0 0
            = witOne.positions 0 0) := by
  have hF : ∀ n : ℕ,
      (calculateForces "1" ((updatePosVerlet "1" 200 200)^[n] witOne)).forces 0 0 = ⟨0, 0⟩ :=
    fun n => calculateForces_forces_one "1" _
      (by rw [verlet_iterate_rows]; rfl) (by rw [verlet_iterate_cols]; rfl)
  have h1 : padding ≤ ((witOne.positions 0 0).x : ℝ) := by
    show padding ≤ (60 : ℝ); rw [padding]; norm_num
  have h2 : ((witOne.positions 0 0).x : ℝ) ≤ 200 - padding := by
    show (60 : ℝ) ≤ 200 - padding; rw [padding]; norm_num
  exact ⟨Nat.one_pos, Nat.one_pos, rfl, h1, h2, h1, h2, hF,
    verlet_stationary "1" 200 200 witOne 0 0 Nat.one_pos Nat.one_pos rfl h1 h2 h1 h2 hF 3⟩

lemma initializeGrid_rows (task : String) (rows cols : ℕ) (w hgt : ℝ) :
    (initializeGrid task rows cols w hgt).rows = effRows task rows := rfl

lemma initializeGrid_cols (task : String) (rows cols : ℕ) (w hgt : ℝ) :
    (initializeGrid task rows cols w hgt).cols = effCols task cols := rfl

lemma initializeGrid_positions (task : String) (rows cols : ℕ) (w hgt : ℝ) :
    (initializeGrid task rows cols w hgt).positions
      = disturb task (effCols task cols)
          (fun i j => latticePos (effRows task rows) (effCols task cols) w hgt i j) := rfl

lemma initializeGrid_prevPositions (task : String) (rows cols : ℕ) (w hgt : ℝ) :
    (initializeGrid task rows cols w hgt).prevPositions
      = fun i j => latticePos (effRows task rows) (effCols task cols) w hgt i j := rfl

/-- The disturbance leaves every cell other than its target unchanged. -/
lemma disturb_apply_ne (task : String) (cols : ℕ) (f : ℕ → ℕ → Vec2) (i j : ℕ)
    (h : some (i, j) ≠ disturbedCell task cols) :
    disturb task cols f i j = f i j := by
  unfold disturbedCell at h
  unfold disturb
  split_ifs at h ⊢ <;>
    first
      | rfl
      | (unfold addVec
         rw [if_neg]
         rintro ⟨rfl, rfl⟩
         exact h rfl)

/-- C2 (amended): immediately after grid initialization, for every preset and
valid dimensions, every mass point other than the one targeted by the preset
disturbance has its previous position equal to its position; the disturbed
point instead keeps the undisturbed lattice value as its previous position. -/
theorem initializeGrid_prev_copy (task : String) (rows cols : ℕ) (w hgt : ℝ) (i j : ℕ)
    (hi : i < (initializeGrid task rows cols w hgt).rows)
    (hj : j < (initializeGrid task rows cols w hgt).cols)
    (hnd : some (i, j) ≠ disturbedCell task (initializeGrid task rows cols w hgt).cols) :
    (initializeGrid task rows cols w hgt).prevPositions i j
      = (initializeGrid task rows cols w hgt).positions i j := by
  rw [initializeGrid_cols] at hnd
  rw [initializeGrid_positions, initializeGrid_prevPositions,
    disturb_apply_ne task (effCols task cols) _ i j hnd]

/-- Witness for the amended C2: the undisturbed corner point of the task-1
preset. -/
theorem initializeGrid_prev_copy_witness :
    0 < (initializeGrid "1" 1 2 200 200).rows
    ∧ 0 < (initializeGrid "1" 1 2 200 200).cols
    ∧ some ((0 : ℕ), (0 : ℕ)) ≠ disturbedCell "1" (initializeGrid "1" 1 2 200 200).cols
    ∧ (initializeGrid "1" 1 2 200 200).prevPositions 0 0
        = (initializeGrid "1" 1 2 200 200).positions 0 0 := by
  have hr : 0 < (initializeGrid "1" 1 2 200 200).rows := by
    rw [initializeGrid_rows]; decide
  have hc : 0 < (initializeGrid "1" 1 2 200 200).cols := by
    rw [initializeGrid_cols]; decide
  have hnd : some ((0 : ℕ), (0 : ℕ)) ≠ disturbedCell "1" (initializeGrid "1" 1 2 200 200).cols := by
    rw [initializeGrid_cols]; decide
  exact ⟨hr, hc, hnd, initializeGrid_prev_copy "1" 1 2 200 200 0 0 hr hc hnd⟩

/-- C2 counterexample: in the task-1 preset the disturbed point (0,1) has its
position shifted 20 to the right of its previous position, so the two differ
immediately after initialization. -/
theorem initializeGrid_prev_copy_cex :
    (initializeGrid "1" 1 2 200 200).positions 0 1
      ≠ (initializeGrid "1" 1 2 200 200).prevPositions 0 1 := by
  intro h
  have hx := congrArg Vec2.x h
  rw [initializeGrid_positions, initializeGrid_prevPositions] at hx
  unfold disturb at hx
  rw [if_pos rfl] at hx
  unfold addVec at hx
  rw [if_pos ⟨rfl, rfl⟩] at hx
  dsimp only at hx
  linarith

/-- C9: for a 3-by-3 grid (task-4 preset, whose shear condition holds), one
force-accumulation pass invokes the spring model on exactly 12 structural
edges, and with shear enabled on 8 additional diagonal edges for 20 total;
the invoked edges coincide, as index pairs, with the rendered edge list of
drawEdges in both the shearless and the shear case. -/
theorem topology_3x3_edges :
    (edgeList 3 3 false).length = 12
    ∧ (shearEdges 3 3).length = 8
    ∧ (edgeList 3 3 true).length = 20
    ∧ shearEnabled "4" = true
    ∧ (edgeList 3 3 false).map Edge.toPair = drawEdgesIdx 3 3 false
    ∧ (edgeList 3 3 true).map Edge.toPair = drawEdgesIdx 3 3 true := by
  refine ⟨?_, ?_, ?_, ?_, ?_, ?_⟩ <;> decide

/-! Lemmas for the total-force invariant. -/

lemma totalForceX_addForce (s : SimState) (a b : ℕ) (f : Vec2)
    (ha : a < s.rows) (hb : b < s.cols) :
    totalForceX (addForce s a b f) = totalForceX s + f.x := by
  unfold totalForceX
  rw [addForce_rows, addForce_cols]
  have hsum : ∀ i j : ℕ, ((addForce s a b f).forces i j).x
      = (s.forces i j).x + (if i = a ∧ j = b then f.x else 0) := addForce_forces_x s a b f
  calc ∑ i ∈ Finset.range s.rows, ∑ j ∈ Finset.range s.cols, ((addForce s a b f).forces i j).x
      = ∑ i ∈ Finset.range s.rows, ∑ j ∈ Finset.range s.cols,
          ((s.forces i j).x + (if i = a ∧ j = b then f.x else 0)) :=
        Finset.sum_congr rfl fun i _ => Finset.sum_congr rfl fun j _ => hsum i j
    _ = (∑ i ∈ Finset.range s.rows, ∑ j ∈ Finset.range s.cols, (s.forces i j).x)
          + ∑ i ∈ Finset.range s.rows, ∑ j ∈ Finset.range s.cols,
              (if i = a ∧ j = b then f.x else 0) := by
        rw [← Finset.sum_add_distrib]
        exact Finset.sum_congr rfl fun i _ => Finset.sum_add_distrib
    _ = (∑ i ∈ Finset.range s.rows, ∑ j ∈ Finset.range s.cols, (s.forces i j).x) + f.x := by
        congr 1
        have hin : ∀ i : ℕ,
            (∑ j ∈ Finset.range s.cols, (if i = a ∧ j = b then f.x else 0))
              = if i = a then f.x else 0 := by
          intro i
          by_cases hia : i = a
          · subst hia
            simp [Finset.sum_ite_eq', Finset.mem_range, hb]
          · simp [hia]
        rw [Finset.sum_congr rfl fun i _ => hin i]
        simp [Finset.sum_ite_eq', Finset.mem_range, ha]

lemma totalForceY_addForce (s : SimState) (a b : ℕ) (f : Vec2)
    (ha : a < s.rows) (hb : b < s.cols) :
    totalForceY (addForce s a b f) = totalForceY s + f.y := by
  unfold totalForceY
  rw [addForce_rows, addForce_cols]
  have hsum : ∀ i j : ℕ, ((addForce s a b f).forces i j).y
      = (s.forces i j).y + (if i = a ∧ j = b then f.y else 0) := addForce_forces_y s a b f
  calc ∑ i ∈ Finset.range s.rows, ∑ j ∈ Finset.range s.cols, ((addForce s a b f).forces i j).y
      = ∑ i ∈ Finset.range s.rows, ∑ j ∈ Finset.range s.cols,
          ((s.forces i j).y + (if i = a ∧ j = b then f.y else 0)) :=
        Finset.sum_congr rfl fun i _ => Finset.sum_congr rfl fun j _ => hsum i j
    _ = (∑ i ∈ Finset.range s.rows, ∑ j ∈ Finset.range s.cols, (s.forces i j).y)
          + ∑ i ∈ Finset.range s.rows, ∑ j ∈ Finset.range s.cols,
              (if i = a ∧ j = b then f.y else 0) := by
        rw [← Finset.sum_add_distrib]
        exact Finset.sum_congr rfl fun i _ => Finset.sum_add_distrib
    _ = (∑ i ∈ Finset.range s.rows, ∑ j ∈ Finset.range s.cols, (s.forces i j).y) + f.y := by
        congr 1
        have hin : ∀ i : ℕ,
            (∑ j ∈ Finset.range s.cols, (if i = a ∧ j = b then f.y else 0))
              = if i = a then f.y else 0 := by
          intro i
          by_cases hia : i = a
          · subst hia
            simp [Finset.sum_ite_eq', Finset.mem_range, hb]
          · simp [hia]
        rw [Finset.sum_congr rfl fun i _ => hin i]
        simp [Finset.sum_ite_eq', Finset.mem_range, ha]

lemma totalForce_addForce_pair (s : SimState) (i1 j1 i2 j2 : ℕ) (f g : Vec2)
    (hgx : g.x = -f.x) (hgy : g.y = -f.y)
    (h1 : i1 < s.rows) (h2 : j1 < s.cols) (h3 : i2 < s.rows) (h4 : j2 < s.cols) :
    totalForceX (addForce (addForce s i1 j1 f) i2 j2 g) = totalForceX s
    ∧ totalForceY (addForce (addForce s i1 j1 f) i2 j2 g) = totalForceY s := by
  constructor
  · rw [totalForceX_addForce (addForce s i1 j1 f) i2 j2 g h3 h4,
      totalForceX_addForce s i1 j1 f h1 h2, hgx]
    ring
  · rw [totalForceY_addForce (addForce s i1 j1 f) i2 j2 g h3 h4,
      totalForceY_addForce s i1 j1 f h1 h2, hgy]
    ring

lemma totalForceX_applySpring (i1 j1 i2 j2 : ℕ) (L0 k b : ℝ) (s : SimState)
    (h1 : i1 < s.rows) (h2 : j1 < s.cols) (h3 : i2 < s.rows) (h4 : j2 < s.cols) :
    totalForceX (applySpring i1 j1 i2 j2 L0 k b s) = totalForceX s := by
  unfold applySpring
  dsimp only
  split
  · rfl
  · exact (totalForce_addForce_pair s i1 j1 i2 j2 _ _ rfl rfl h1 h2 h3 h4).1

lemma totalForceY_applySpring (i1 j1 i2 j2 : ℕ) (L0 k b : ℝ) (s : SimState)
    (h1 : i1 < s.rows) (h2 : j1 < s.cols) (h3 : i2 < s.rows) (h4 : j2 < s.cols) :
    totalForceY (applySpring i1 j1 i2 j2 L0 k b s) = totalForceY s := by
  unfold applySpring
  dsimp only
  split
  · rfl
  · exact (totalForce_addForce_pair s i1 j1 i2 j2 _ _ rfl rfl h1 h2 h3 h4).2

/-- Every edge produced by the force-accumulation pass has both endpoints
inside the grid. -/
lemma edgeList_mem_lt (R C : ℕ) (sh : Bool) (e : Edge) (he : e ∈ edgeList R C sh) :
    e.i1 < R ∧ e.j1 < C ∧ e.i2 < R ∧ e.j2 < C := by
  unfold edgeList at he
  rcases List.mem_append.mp he with h | h
  · unfold structuralEdges at h
    rcases List.mem_flatMap.mp h with ⟨i, hi, h⟩
    rcases List.mem_flatMap.mp h with ⟨j, hj, h⟩
    rw [List.mem_range] at hi hj
    rcases List.mem_append.mp h with h | h
    · by_cases hc : j < C - 1
      · rw [if_pos hc] at h
        rw [List.mem_singleton.mp h]
        exact ⟨hi, hj, hi, show j + 1 < C by omega⟩
      · rw [if_neg hc] at h
        exact absurd h (List.not_mem_nil e)
    · by_cases hc : i < R - 1
      · rw [if_pos hc] at h
        rw [List.mem_singleton.mp h]
        exact ⟨hi, hj, show i + 1 < R by omega, hj⟩
      · rw [if_neg hc] at h
        exact absurd h (List.not_mem_nil e)
  · rcases sh with _ | _
    · simp only [Bool.false_eq_true, if_false] at h
      exact absurd h (List.not_mem_nil e)
    · simp only [if_true] at h
      unfold shearEdges at h
      rcases List.mem_flatMap.mp h with ⟨i, hi, h⟩
      rcases List.mem_flatMap.mp h with ⟨j, hj, h⟩
      rw [List.mem_range] at hi hj
      rcases List.mem_cons.mp h with h | h
      · rw [h]
        exact ⟨show i < R by omega, show j < C by omega,
          show i + 1 < R by omega, show j + 1 < C by omega⟩
      · rw [List.mem_singleton.mp h]
        exact ⟨show i + 1 < R by omega, show j < C by omega,
          show i < R by omega, show j + 1 < C by omega⟩

lemma totalForceX_foldl (R C : ℕ) (l : List Edge)
    (hl : ∀ e ∈ l, e.i1 < R ∧ e.j1 < C ∧ e.i2 < R ∧ e.j2 < C) :
    ∀ s : SimState, s.rows = R → s.cols = C →
      totalForceX (l.foldl applySpringEdge s) = totalForceX s := by
  induction l with
  | nil => intro s _ _; rfl
  | cons e l ih =>
    intro s hr hc
    rw [List.foldl_cons]
    have hstep : totalForceX (applySpringEdge s e) = totalForceX s := by
      obtain ⟨a1, a2, a3, a4⟩ := hl e (List.mem_cons_self e l)
      unfold applySpringEdge
      split <;>
        exact totalForceX_applySpring _ _ _ _ _ _ _ s
          (by rw [hr]; exact a1) (by rw [hc]; exact a2)
          (by rw [hr]; exact a3) (by rw [hc]; exact a4)
    rw [ih (fun e' he' => hl e' (List.mem_cons_of_mem e he')) (applySpringEdge s e)
        (by rw [applySpringEdge_rows, hr]) (by rw [applySpringEdge_cols, hc]), hstep]

lemma totalForceY_foldl (R C : ℕ) (l : List Edge)
    (hl : ∀ e ∈ l, e.i1 < R ∧ e.j1 < C ∧ e.i2 < R ∧ e.j2 < C) :
    ∀ s : SimState, s.rows = R → s.cols = C →
      totalForceY (l.foldl applySpringEdge s) = totalForceY s := by
  induction l with
  | nil => intro s _ _; rfl
  | cons e l ih =>
    intro s hr hc
    rw [List.foldl_cons]
    have hstep : totalForceY (applySpringEdge s e) = totalForceY s := by
      obtain ⟨a1, a2, a3, a4⟩ := hl e (List.mem_cons_self e l)
      unfold applySpringEdge
      split <;>
        exact totalForceY_applySpring _ _ _ _ _ _ _ s
          (by rw [hr]; exact a1) (by rw [hc]; exact a2)
          (by rw [hr]; exact a3) (by rw [hc]; exact a4)
    rw [ih (fun e' he' => hl e' (List.mem_cons_of_mem e he')) (applySpringEdge s e)
        (by rw [applySpringEdge_rows, hr]) (by rw [applySpringEdge_cols, hc]), hstep]

lemma totalForceX_zeroForces (s : SimState) : totalForceX (zeroForces s) = 0 := by
  unfold totalForceX zeroForces
  dsimp only
  refine Finset.sum_eq_zero fun i hi => Finset.sum_eq_zero fun j hj => ?_
  rw [Finset.mem_range] at hi hj
  rw [if_pos ⟨hi, hj⟩]

lemma totalForceY_zeroForces (s : SimState) : totalForceY (zeroForces s) = 0 := by
  unfold totalForceY zeroForces
  dsimp only
  refine Finset.sum_eq_zero fun i hi => Finset.sum_eq_zero fun j hj => ?_
  rw [Finset.mem_range] at hi hj
  rw [if_pos ⟨hi, hj⟩]

/-- C10: after every complete force-accumulation pass, for any grid size and
whether or not shear springs are enabled by the task, the vector sum of the
accumulated forces over all mass points is exactly (0,0) in exact
arithmetic. -/
theorem calculateForces_total_zero (task : String) (s : SimState) :
    totalForceX (calculateForces task s) = 0 ∧ totalForceY (calculateForces task s) = 0 := by
  unfold calculateForces
  constructor
  · rw [totalForceX_foldl s.rows s.cols _
      (fun e he => edgeList_mem_lt s.rows s.cols _ e he) (zeroForces s) rfl rfl]
    exact totalForceX_zeroForces s
  · rw [totalForceY_foldl s.rows s.cols _
      (fun e he => edgeList_mem_lt s.rows s.cols _ e he) (zeroForces s) rfl rfl]
    exact totalForceY_zeroForces s
